import Mathlib

/-!
Shallow embedding of the `optimization-metaheuristics` Rust crate.

Conventions of the embedding:
* `f64` is modelled by `ℚ` wherever the code only compares, adds and
  multiplies (configuration validation, knapsack bookkeeping, the cooling
  schedule), keeping every definition executable and decidable; the
  simulated-annealing acceptance test applies `Real.exp`, so there the
  rational data is cast into `ℝ`.
* `usize` is modelled by `ℕ` (the code performs no arithmetic that wraps).
* `Result<T, E>` is modelled by `Except E T`; a Rust panic (an
  out-of-bounds index) is a distinct outcome `RunResult.panics`, separate
  from returning an error value.
* A `&mut impl Rng` argument is modelled by threading an abstract
  randomness-state type through the call, or — for a single call — by
  passing the values the generator produced (a sampled index, a uniform
  draw) as explicit arguments.
* Stateful loops (the annealing iteration) are modelled by a step relation
  on an explicit state record.
-/

/-- `AlgorithmError` from `src/algorithms/errors.rs`. -/
inductive AlgorithmError where
  | ConfigurationError : String → AlgorithmError
  | ExecutionError : String → AlgorithmError
  deriving DecidableEq, Repr

/-- `ProblemError` from `src/problems/errors.rs`. -/
inductive ProblemError where
  | InitializationError : String → ProblemError
  | NewSolutionError : String → ProblemError
  deriving DecidableEq, Repr

/-- Outcome of running a Rust function that may panic besides returning
`Result`: `panics` is an index-out-of-bounds abort, `err e` is `Err(e)`,
`ok a` is `Ok(a)`. -/
inductive RunResult (α : Type) where
  | panics : RunResult α
  | err : AlgorithmError → RunResult α
  | ok : α → RunResult α
  deriving DecidableEq, Repr

/-- `true` exactly on `Except.error`. -/
def isError {ε α : Type} : Except ε α → Bool
  | .error _ => true
  | .ok _ => false

/-- `true` exactly on `RunResult.err`. -/
def RunResult.isErr {α : Type} : RunResult α → Bool
  | .err _ => true
  | _ => false

/-- `GeneticAlgorithmConfig` from `src/algorithms/genetic_algorithm/config.rs`. -/
structure GeneticAlgorithmConfig where
  number_generations : ℕ
  population_size : ℕ
  mutation_rate : ℚ
  number_pairs_parents : ℕ
  stop_threshold : Option ℚ
  deriving DecidableEq, Repr

/-- `GeneticAlgorithmConfig::new` (config.rs lines 30–57): rejects a
mutation rate outside `[0,1]` and `2*number_pairs_parents > population_size`;
performs no other validation. -/
def GeneticAlgorithmConfig.new (number_generations population_size : ℕ)
    (mutation_rate : ℚ) (number_pairs_parents : ℕ) (stop_threshold : Option ℚ) :
    Except AlgorithmError GeneticAlgorithmConfig :=
  if ¬ (0 ≤ mutation_rate ∧ mutation_rate ≤ 1) then
    .error (.ConfigurationError "the mutation rate should be between 0 and 1.")
  else if 2 * number_pairs_parents > population_size then
    .error (.ConfigurationError
      "the population of size should be higher than the number of parents selected at each generation")
  else
    .ok ⟨number_generations, population_size, mutation_rate, number_pairs_parents, stop_threshold⟩

/-- `SimulatedAnnealingConfig` from `src/algorithms/simulated_annealing/config.rs`. -/
structure SimulatedAnnealingConfig where
  max_iterations : ℕ
  initial_temperature : ℚ
  minimal_temperature : ℚ
  cooling_rate : ℚ
  stop_threshold : Option ℚ
  deriving DecidableEq, Repr

/-- `SimulatedAnnealingConfig::new` (config.rs lines 17–46). -/
def SimulatedAnnealingConfig.new (max_iterations : ℕ)
    (initial_temperature minimal_temperature cooling_rate : ℚ)
    (stop_threshold : Option ℚ) :
    Except AlgorithmError SimulatedAnnealingConfig :=
  if initial_temperature < 0 ∨ minimal_temperature < 0 ∨
      initial_temperature < minimal_temperature then
    .error (.ConfigurationError
      "the initial temperature should be above the minimal temperature, and both should be larger than 0.0.")
  else if ¬ (0 ≤ cooling_rate ∧ cooling_rate ≤ 1) then
    .error (.ConfigurationError "the cooling rate should be between 0 and 1.")
  else
    .ok ⟨max_iterations, initial_temperature, minimal_temperature, cooling_rate, stop_threshold⟩

/-!
## The population manager (`src/algorithms/genetic_algorithm/algorithm.rs`)

A `Population<T>` is its `elements: Vec<T>`, modelled as `List T`.  The
`GeneticCompatible` bound supplies an objective (the `PartialOrd` instance
compares objectives) and a crossover method; the embedding passes the
objective as `obj : T → ℚ` and crossover as an oracle
`children : T → T → R → Except ProblemError (List T × R)` threading the
randomness state `R`.
-/

/-- `Population::add_individuals` (algorithm.rs lines 37–39): `Vec::extend`. -/
def Population.add_individuals {T : Type} (elements individuals : List T) : List T :=
  elements ++ individuals

/-- `Population::truncate` (algorithm.rs lines 41–43): `Vec::truncate`. -/
def Population.truncate {T : Type} (elements : List T) (size : ℕ) : List T :=
  elements.take size

/-- `Population::sort` (algorithm.rs lines 45–48): sorts ascending by the
comparator `a.partial_cmp(b).unwrap_or(Equal)`, which for the modelled total
objective is `obj a ≤ obj b`. -/
def Population.sort {T : Type} (obj : T → ℚ) (elements : List T) : List T :=
  elements.mergeSort (fun a b => decide (obj a ≤ obj b))

/-- `Population::best_individual` (algorithm.rs lines 67–72). -/
def Population.best_individual {T : Type} (elements : List T) :
    Except AlgorithmError T :=
  match elements with
  | [] => .error (.ExecutionError "empty population")
  | x :: _ => .ok x

/-- Worker for `Population::generate_offspring` (algorithm.rs lines 50–65):
the iterator over `idx in 0..number_pairs_parents` indexes
`elements[2*idx]` and `elements[2*idx+1]` directly (a panic when out of
bounds), calls `generate_children_with`, and `collect::<Result<_,_>>`
short-circuits at the first failing pair.  `k` counts the pairs still to
process. -/
def genOffspringAux {T R : Type}
    (children : T → T → R → Except ProblemError (List T × R))
    (elements : List T) : ℕ → ℕ → R → RunResult (List T × R)
  | _idx, 0, rng => .ok ([], rng)
  | idx, k + 1, rng =>
    match elements[2 * idx]?, elements[2 * idx + 1]? with
    | some a, some b =>
      match children a b rng with
      | .error _ => .err (.ExecutionError "could not generate offsprings")
      | .ok (cs, rng1) =>
        match genOffspringAux children elements (idx + 1) k rng1 with
        | .panics => .panics
        | .err e => .err e
        | .ok (rest, rng2) => .ok (cs ++ rest, rng2)
    | _, _ => .panics

/-- `Population::generate_offspring` (algorithm.rs lines 50–65), flattening
the per-pair offspring in pair order. -/
def Population.generate_offspring {T R : Type}
    (children : T → T → R → Except ProblemError (List T × R))
    (elements : List T) (number_pairs_parents : ℕ) (rng : R) :
    RunResult (List T × R) :=
  genOffspringAux children elements 0 number_pairs_parents rng

/-- Modelled from the spec: the behaviour §4.2 ascribes to
`generate_offspring` — pair positions `(0,1), (2,3), …`, flatten the
offspring in order, and fail with an `ExecutionError` (never a panic) both
when a pairing fails and when fewer than `2*pairs` elements exist. -/
def specGenerateOffspring {T R : Type}
    (children : T → T → R → Except ProblemError (List T × R))
    (elements : List T) : ℕ → ℕ → R → Except AlgorithmError (List T × R)
  | _idx, 0, rng => .ok ([], rng)
  | idx, k + 1, rng =>
    match elements[2 * idx]?, elements[2 * idx + 1]? with
    | some a, some b =>
      match children a b rng with
      | .error _ => .error (.ExecutionError "could not generate offsprings")
      | .ok (cs, rng1) =>
        match specGenerateOffspring children elements (idx + 1) k rng1 with
        | .error e => .error e
        | .ok (rest, rng2) => .ok (cs ++ rest, rng2)
    | _, _ => .error (.ExecutionError "could not generate offsprings")

/-- Inclusion of `Except` outcomes into `RunResult` outcomes. -/
def RunResult.ofExcept {α : Type} : Except AlgorithmError α → RunResult α
  | .error e => .err e
  | .ok a => .ok a

/-- One generation's merge step of `GeneticAlgorithm::execute`
(algorithm.rs lines 133–136): add the offspring, re-sort, truncate to
`population_size`. -/
def gaGenerationMerge {T : Type} (obj : T → ℚ)
    (population offsprings : List T) (population_size : ℕ) : List T :=
  Population.truncate
    (Population.sort obj (Population.add_individuals population offsprings))
    population_size

/-!
## The knapsack collaborator (`src/problems/knapsack.rs`)

`HashSet<usize>` is modelled by `Finset ℕ`; the value/weight tables by
`List ℚ` indexed with `getD _ 0` (the code's `all_values[i]` assumes the
index in range, as every constructor of an index guarantees).
-/

/-- `KnapsackProblem` (knapsack.rs lines 14–26). -/
structure KnapsackProblem where
  number_items : ℕ
  max_weight : ℚ
  all_values : List ℚ
  all_weights : List ℚ
  optimal_value : Option ℚ
  deriving DecidableEq, Repr

/-- `KnapsackSolution` (knapsack.rs lines 110–120): the selected items with
the cached total value and weight. -/
structure KnapsackSolution where
  items : Finset ℕ
  value : ℚ
  weight : ℚ
  problem : KnapsackProblem
  deriving DecidableEq

/-- `KnapsackSolution::new` (knapsack.rs lines 123–141): folds the value
and weight tables over the item set. -/
def KnapsackSolution.new (current_items : Finset ℕ) (problem : KnapsackProblem) :
    KnapsackSolution :=
  { items := current_items
    value := ∑ i ∈ current_items, problem.all_values.getD i 0
    weight := ∑ i ∈ current_items, problem.all_weights.getD i 0
    problem := problem }

/-- `KnapsackSolution::objective` (knapsack.rs lines 169–176). -/
def KnapsackSolution.objective (s : KnapsackSolution) : ℚ :=
  if s.weight > s.problem.max_weight then 0 else -s.value

/-- The cached-field consistency invariant: the `value` and `weight` fields
agree with the sums of the tables over the current item set. -/
def KnapsackSolution.consistent (s : KnapsackSolution) : Prop :=
  s.value = ∑ i ∈ s.items, s.problem.all_values.getD i 0 ∧
    s.weight = ∑ i ∈ s.items, s.problem.all_weights.getD i 0

instance (s : KnapsackSolution) : Decidable s.consistent := by
  unfold KnapsackSolution.consistent; infer_instance

/-- `KnapsackSolution::new_solution` (knapsack.rs lines 180–207): flip the
membership of `random_index` (drawn by the caller's generator in
`0..number_items`) and update the cached value and weight incrementally. -/
def KnapsackSolution.new_solution (s : KnapsackSolution) (random_index : ℕ) :
    KnapsackSolution :=
  if random_index ∈ s.items then
    { items := s.items.erase random_index
      value := s.value - s.problem.all_values.getD random_index 0
      weight := s.weight - s.problem.all_weights.getD random_index 0
      problem := s.problem }
  else
    { items := insert random_index s.items
      value := s.value + s.problem.all_values.getD random_index 0
      weight := s.weight + s.problem.all_weights.getD random_index 0
      problem := s.problem }

/-- The flip count `(mutation_rate * number_items).clamp(0, number_items).floor`
computed by `KnapsackSolution::mutate` (knapsack.rs lines 213–219). -/
def KnapsackSolution.expected_number_flips (mutation_rate : ℚ) (number_items : ℕ) : ℕ :=
  (⌊min (max (mutation_rate * number_items) 0) number_items⌋).toNat

/-- `KnapsackSolution::mutate` (knapsack.rs lines 212–229): flip the
membership of each sampled index (`indices` is the output of
`rand::seq::index::sample`, `expected_number_flips` distinct indices below
`number_items`).  The cached `value` and `weight` fields are not touched. -/
def KnapsackSolution.mutate (s : KnapsackSolution) (indices : List ℕ) :
    KnapsackSolution :=
  { s with
    items := indices.foldl
      (fun st n => if n ∈ st then st.erase n else insert n st) s.items }

/-- `KnapsackSolution::generate_children_with` (knapsack.rs lines 230–256):
`shuffled` is the shuffled list of the union of the parents' item sets; it
is split at `len / 2` and each half is rebuilt with `KnapsackSolution::new`. -/
def KnapsackSolution.generate_children_with (s _other : KnapsackSolution)
    (shuffled : List ℕ) : List KnapsackSolution :=
  let split_at := shuffled.length / 2
  [KnapsackSolution.new (shuffled.take split_at).toFinset s.problem,
   KnapsackSolution.new (shuffled.drop split_at).toFinset s.problem]

/-!
## The simulated-annealing loop (`src/algorithms/simulated_annealing/algorithm.rs`)

The loop's mutable variables form an `SAState`; one pass of the `while`
body is the relation `saStep`, parameterised by the neighbour the
`new_solution` call produced and the uniform `[0,1)` draw `u` that
`rng.random()` produced.  The acceptance test casts the rational data into
`ℝ` for `Real.exp`.
-/

/-- The mutable state of `SimulatedAnnealingAlgorithm::execute`
(algorithm.rs lines 62–66). -/
structure SAState (S : Type) where
  current : S
  best : S
  temperature : ℚ
  iteration : ℕ

/-- `SimulatedAnnealingAlgorithm::cooldown` (algorithm.rs lines 47–49). -/
def cooldown (config : SimulatedAnnealingConfig) (temperature : ℚ) : ℚ :=
  temperature * config.cooling_rate

/-- The acceptance test of algorithm.rs line 77,
`(-delta_objective / temperature).exp() > rng.random()`, under IEEE-754
evaluation for a finite delta and finite temperature.  With
`temperature ≠ 0` the quotient is finite and the comparison is the real
one.  With `temperature = 0` (reachable: `initial_temperature = 0` and
`minimal_temperature = 0` pass validation) the f64 division by `+0.0`
gives: `NaN` when `delta = 0` (the numerator is `-0.0`, `0/0` is `NaN`,
`exp(NaN) = NaN`, and `NaN > u` is false); `+inf` when `delta < 0`
(`exp(+inf) = +inf` exceeds every finite draw); `-inf` when `delta > 0`
(`exp(-inf) = +0.0`, so the test becomes `0.0 > u`). -/
def accepts (delta_objective temperature : ℚ) (u : ℝ) : Prop :=
  if temperature = 0 then
    if delta_objective = 0 then False
    else if delta_objective < 0 then True
    else (0 : ℝ) > u
  else Real.exp (-(delta_objective : ℝ) / (temperature : ℝ)) > u

/-- One iteration of the `while` loop of
`SimulatedAnnealingAlgorithm::execute` (algorithm.rs lines 69–97):
`neighbor` is the solution `new_solution` returned and `u` the uniform
draw; the accepted solution replaces `current`, `best` is replaced when the
new current strictly improves on it, the temperature is cooled and clamped
at `minimal_temperature`, and the iteration counter advances. -/
def saStep {S : Type} (config : SimulatedAnnealingConfig) (obj : S → ℚ)
    (neighbor : S) (u : ℝ) (s s' : SAState S) : Prop :=
  (accepts (obj neighbor - obj s.current) s.temperature u ∧
    ((obj neighbor < obj s.best ∧
        s' = ⟨neighbor, neighbor,
          max (cooldown config s.temperature) config.minimal_temperature,
          s.iteration + 1⟩) ∨
      (¬ obj neighbor < obj s.best ∧
        s' = ⟨neighbor, s.best,
          max (cooldown config s.temperature) config.minimal_temperature,
          s.iteration + 1⟩))) ∨
  (¬ accepts (obj neighbor - obj s.current) s.temperature u ∧
    s' = ⟨s.current, s.best,
      max (cooldown config s.temperature) config.minimal_temperature,
      s.iteration + 1⟩)

/-- The loop transitions with the per-iteration randomness existentially
abstracted. -/
def saStepAny {S : Type} (config : SimulatedAnnealingConfig) (obj : S → ℚ)
    (s s' : SAState S) : Prop :=
  ∃ (neighbor : S) (u : ℝ), 0 ≤ u ∧ u < 1 ∧ saStep config obj neighbor u s s'

/-- Zero or more loop iterations. -/
def saReach {S : Type} (config : SimulatedAnnealingConfig) (obj : S → ℚ) :
    SAState S → SAState S → Prop :=
  Relation.ReflTransGen (saStepAny config obj)

/-- `SimulationResult` (algorithm.rs lines 22–29), without the wall-clock
`runtime` field. -/
structure SimulationResult (S : Type) where
  solution : S
  number_iterations : ℕ

/-- The result construction of algorithm.rs line 100:
`SimulationResult::new(best_solution, …, iteration)` — the best-seen
solution, not the final current one, is returned. -/
def mkSimulationResult {S : Type} (s : SAState S) : SimulationResult S :=
  ⟨s.best, s.iteration⟩

/-!
## Claims about the configuration constructors
-/

/-- C3 counterexample: `GeneticAlgorithmConfig::new` accepts zero generations
and a zero population size, so not every `Ok` config satisfies
`number_generations > 0` and `population_size > 0`. -/
theorem gaConfigNew_accepts_zero :
    GeneticAlgorithmConfig.new 0 0 0 0 none = .ok ⟨0, 0, 0, 0, none⟩ ∧
      ¬ 0 < (GeneticAlgorithmConfig.mk 0 0 0 0 none).number_generations ∧
      ¬ 0 < (GeneticAlgorithmConfig.mk 0 0 0 0 none).population_size :=
  ⟨rfl, by decide, by decide⟩

/-- C3 (amended): every config returned `Ok` by `GeneticAlgorithmConfig::new`
satisfies exactly the checks the constructor performs — `mutation_rate ∈ [0,1]`
and `2*number_pairs_parents ≤ population_size` — and carries the raw arguments
unchanged; no positivity of `number_generations` or `population_size` is
enforced. -/
theorem gaConfigNew_ok_characterization (ng ps : ℕ) (mr : ℚ) (np : ℕ)
    (st : Option ℚ) (c : GeneticAlgorithmConfig)
    (h : GeneticAlgorithmConfig.new ng ps mr np st = .ok c) :
    (0 ≤ mr ∧ mr ≤ 1) ∧ 2 * np ≤ ps ∧ c = ⟨ng, ps, mr, np, st⟩ := by
  by_cases hc1 : 0 ≤ mr ∧ mr ≤ 1
  · by_cases hc2 : 2 * np > ps
    · simp [GeneticAlgorithmConfig.new, hc1, hc2] at h
    · have hok : GeneticAlgorithmConfig.new ng ps mr np st =
          .ok ⟨ng, ps, mr, np, st⟩ := by
        simp [GeneticAlgorithmConfig.new, hc1, hc2]
      rw [hok] at h
      injection h with h3
      exact ⟨hc1, Nat.le_of_not_lt hc2, h3.symm⟩
  · simp [GeneticAlgorithmConfig.new, hc1] at h

theorem gaConfigNew_ok_characterization_witness :
    (0 ≤ (0:ℚ) ∧ (0:ℚ) ≤ 1) ∧ 2 * 0 ≤ 1 ∧
      GeneticAlgorithmConfig.mk 1 1 0 0 none = ⟨1, 1, 0, 0, none⟩ :=
  gaConfigNew_ok_characterization 1 1 0 0 none ⟨1, 1, 0, 0, none⟩ rfl

/-- C5: `GeneticAlgorithmConfig::new` errors exactly when the mutation rate
leaves `[0,1]` or `2*number_pairs_parents > population_size`;
`SimulatedAnnealingConfig::new` errors exactly when
`¬(initial ≥ minimal ≥ 0)` or the cooling rate leaves `[0,1]`; and the two
concrete constructions named by the spec are both rejected. -/
theorem configNew_error_characterization :
    (∀ (ng ps : ℕ) (mr : ℚ) (np : ℕ) (st : Option ℚ),
        isError (GeneticAlgorithmConfig.new ng ps mr np st) = true ↔
          (¬ (0 ≤ mr ∧ mr ≤ 1) ∨ 2 * np > ps)) ∧
    (∀ (mi : ℕ) (it mt cr : ℚ) (st : Option ℚ),
        isError (SimulatedAnnealingConfig.new mi it mt cr st) = true ↔
          (¬ (it ≥ mt ∧ mt ≥ 0) ∨ ¬ (0 ≤ cr ∧ cr ≤ 1))) ∧
    isError (GeneticAlgorithmConfig.new 100 10 (1/10) 6 none) = true ∧
    isError (SimulatedAnnealingConfig.new 100 1 2 (9/10) none) = true := by
  refine ⟨?_, ?_, ?_, ?_⟩
  · intro ng ps mr np st
    by_cases hc1 : 0 ≤ mr ∧ mr ≤ 1
    · by_cases hc2 : 2 * np > ps
      · simp [GeneticAlgorithmConfig.new, hc1, hc2, isError]
      · simp [GeneticAlgorithmConfig.new, hc1, hc2, isError]
    · simp [GeneticAlgorithmConfig.new, hc1, isError]
  · intro mi it mt cr st
    by_cases hc1 : it < 0 ∨ mt < 0 ∨ it < mt
    · simp only [SimulatedAnnealingConfig.new, if_pos hc1, isError, true_iff]
      refine Or.inl ?_
      rintro ⟨hge, h0⟩
      rcases hc1 with h | h | h <;> linarith
    · have hnot : ¬ (it < 0 ∨ mt < 0 ∨ it < mt) := hc1
      by_cases hc2 : 0 ≤ cr ∧ cr ≤ 1
      · simp only [SimulatedAnnealingConfig.new, if_neg hnot, if_neg (not_not_intro hc2),
          isError, Bool.false_eq_true, false_iff]
        push_neg at hc1
        rintro (h | h)
        · exact h ⟨hc1.2.2, hc1.2.1⟩
        · exact h hc2
      · simp only [SimulatedAnnealingConfig.new, if_neg hnot, if_pos hc2, isError, true_iff]
        exact Or.inr hc2
  · norm_num [GeneticAlgorithmConfig.new, isError]
  · norm_num [SimulatedAnnealingConfig.new, isError]

/-!
## Claims about the population manager and the GA generation step
-/

/-- C9: after any generation's merge–sort–truncate step, the population
holds at most `population_size` elements, whatever the initial population
and offspring were. -/
theorem gaGenerationMerge_length_le (T : Type) (obj : T → ℚ)
    (population offsprings : List T) (population_size : ℕ) :
    (gaGenerationMerge obj population offsprings population_size).length ≤
      population_size := by
  simp only [gaGenerationMerge, Population.truncate, List.length_take]
  exact Nat.min_le_left _ _

/-- The single-item knapsack instance (value 5, weight 1, capacity 10) on
which `mutate` is forced to flip item 0: with `mutation_rate = 1` the flip
count is 1 and `rand::seq::index::sample` over one item can only return
index 0. -/
def knapsackProblemW : KnapsackProblem :=
  ⟨1, 10, [5], [1], none⟩

/-- C2: the freshly built empty solution is consistent, `mutate` with rate 1
flips item 0 into the set, but the cached `value`/`weight` fields are left
at 0 while the sums over the new item set are 5 and 1 — `mutate` breaks the
cached-field invariant. -/
theorem knapsack_mutate_breaks_consistency :
    KnapsackSolution.consistent (KnapsackSolution.new ∅ knapsackProblemW) ∧
    KnapsackSolution.expected_number_flips 1 knapsackProblemW.number_items = 1 ∧
    (KnapsackSolution.mutate (KnapsackSolution.new ∅ knapsackProblemW) [0]).items = {0} ∧
    ¬ KnapsackSolution.consistent
        (KnapsackSolution.mutate (KnapsackSolution.new ∅ knapsackProblemW) [0]) := by
  refine ⟨⟨rfl, rfl⟩, ?_, rfl, ?_⟩
  · norm_num [KnapsackSolution.expected_number_flips, knapsackProblemW]
  · intro h
    have h1 := h.1
    simp [KnapsackSolution.mutate, KnapsackSolution.new, knapsackProblemW,
      KnapsackSolution.consistent, List.foldl] at h1

/-- A trivial crossover oracle over unit solutions and unit randomness
state, used to exercise `generate_offspring` on concrete populations. -/
def trivialChildren : Unit → Unit → Unit → Except ProblemError (List Unit × Unit) :=
  fun _ _ r => .ok ([], r)

/-- C1 counterexample: on a single-element population with one requested
pair — fewer than `2*pairs` elements — `generate_offspring` hits an
out-of-bounds index (a panic), and does not return an `ExecutionError`. -/
theorem generate_offspring_short_population_panics :
    Population.generate_offspring trivialChildren [()] 1 () = .panics ∧
    RunResult.isErr (Population.generate_offspring trivialChildren [()] 1 ()) = false :=
  ⟨rfl, rfl⟩

/-- `genOffspringAux` agrees with the spec-modelled offspring builder as
long as every index it touches is in bounds. -/
theorem genOffspringAux_eq_spec {T R : Type}
    (children : T → T → R → Except ProblemError (List T × R))
    (elements : List T) :
    ∀ (k idx : ℕ) (rng : R), 2 * (idx + k) ≤ elements.length →
      genOffspringAux children elements idx k rng =
        RunResult.ofExcept (specGenerateOffspring children elements idx k rng)
  | 0, _idx, _rng, _h => rfl
  | k + 1, idx, rng, h => by
    have h1 : 2 * idx < elements.length := by omega
    have h2 : 2 * idx + 1 < elements.length := by omega
    simp only [genOffspringAux, specGenerateOffspring,
      List.getElem?_eq_getElem h1, List.getElem?_eq_getElem h2]
    cases children elements[2 * idx] elements[2 * idx + 1] rng with
    | error e => rfl
    | ok pr =>
      obtain ⟨cs, rng1⟩ := pr
      dsimp only
      rw [genOffspringAux_eq_spec children elements k (idx + 1) rng1 (by omega)]
      cases hspec : specGenerateOffspring children elements (idx + 1) k rng1 with
      | error e => rfl
      | ok pr2 =>
        obtain ⟨rest, rng2⟩ := pr2
        rfl

/-- C1 (amended): when the population holds at least `2*pairs` elements,
`generate_offspring` never panics and behaves exactly as the spec
describes — `ExecutionError` exactly when some pairing fails (the first
failing pair wins), and otherwise the flattened concatenation of the
offspring of pairs `(0,1), (2,3), …` in order; with fewer elements the
direct indexing panics instead of returning an `ExecutionError`. -/
theorem generate_offspring_refines_spec (T R : Type)
    (children : T → T → R → Except ProblemError (List T × R))
    (elements : List T) (number_pairs_parents : ℕ) (rng : R)
    (h : 2 * number_pairs_parents ≤ elements.length) :
    Population.generate_offspring children elements number_pairs_parents rng =
      RunResult.ofExcept
        (specGenerateOffspring children elements 0 number_pairs_parents rng) :=
  genOffspringAux_eq_spec children elements number_pairs_parents 0 rng
    (by omega)

theorem generate_offspring_refines_spec_witness :
    Population.generate_offspring trivialChildren [(), ()] 1 () =
      RunResult.ofExcept (specGenerateOffspring trivialChildren [(), ()] 0 1 ()) :=
  generate_offspring_refines_spec Unit Unit trivialChildren [(), ()] 1 ()
    (by decide)

/-- C8: on the empty population `best_individual` returns an
`ExecutionError`; on any non-empty population, `sort()` followed by
`best_individual()` returns `Ok` of an element of the population whose
objective is a lower bound for every element's objective. -/
theorem sort_best_individual_min (T : Type) (obj : T → ℚ) (elements : List T) :
    (elements = [] →
      Population.best_individual (Population.sort obj elements) =
        .error (.ExecutionError "empty population")) ∧
    (elements ≠ [] →
      ∃ x, Population.best_individual (Population.sort obj elements) = .ok x ∧
        x ∈ elements ∧ ∀ y ∈ elements, obj x ≤ obj y) := by
  constructor
  · rintro rfl
    simp only [Population.sort, List.mergeSort_nil]
    rfl
  · intro hne
    have hperm : (Population.sort obj elements).Perm elements :=
      List.mergeSort_perm elements _
    have hsorted : List.Pairwise
        (fun a b => (fun a b : T => decide (obj a ≤ obj b)) a b = true)
        (Population.sort obj elements) :=
      @List.sorted_mergeSort T (fun a b : T => decide (obj a ≤ obj b))
        (fun a b c hab hbc => by
          simp only [decide_eq_true_eq] at hab hbc ⊢
          exact le_trans hab hbc)
        (fun a b => by
          simp only [Bool.or_eq_true, decide_eq_true_eq]
          exact le_total (obj a) (obj b))
        elements
    obtain ⟨x, rest, hx⟩ : ∃ x rest, Population.sort obj elements = x :: rest := by
      cases hsort : Population.sort obj elements with
      | nil =>
        exfalso
        apply hne
        have hlen := hperm.length_eq
        rw [hsort] at hlen
        exact List.length_eq_zero.mp hlen.symm
      | cons x rest => exact ⟨x, rest, rfl⟩
    refine ⟨x, by rw [hx]; rfl, ?_, ?_⟩
    · exact hperm.subset (hx ▸ List.mem_cons_self x rest)
    · intro y hy
      have hy' : y ∈ Population.sort obj elements := hperm.symm.subset hy
      rw [hx] at hy' hsorted
      rcases List.mem_cons.mp hy' with rfl | hy''
      · exact le_refl _
      · have := (List.pairwise_cons.mp hsorted).1 y hy''
        simpa using this

/-!
## Claims about the simulated-annealing loop
-/

/-- With a strictly positive temperature, a uniform draw below 1 and a
non-positive objective delta, the acceptance test of line 77 always
succeeds: `-delta/temperature ≥ 0`, so `exp` of it is at least `1 > u`. -/
theorem accepts_of_nonpos (delta_objective temperature : ℚ) (u : ℝ)
    (hT : 0 < temperature) (hu : u < 1) (hd : delta_objective ≤ 0) :
    accepts delta_objective temperature u := by
  unfold accepts
  rw [if_neg (ne_of_gt hT)]
  have h1 : (0:ℝ) ≤ -(delta_objective : ℝ) / (temperature : ℝ) := by
    apply div_nonneg
    · simp only [neg_nonneg]
      exact_mod_cast hd
    · exact_mod_cast le_of_lt hT
  calc u < 1 := hu
    _ ≤ Real.exp (-(delta_objective : ℝ) / (temperature : ℝ)) := Real.one_le_exp h1

/-- At temperature zero an equal-objective neighbor is never accepted: the
computed quotient is `NaN` and the comparison with the draw is false. -/
theorem not_accepts_zero_zero (u : ℝ) : ¬ accepts 0 0 u := by
  simp [accepts]

/-- At temperature zero a strictly improving neighbor is always accepted:
`exp(+inf) = +inf` exceeds every finite draw. -/
theorem accepts_zero_of_neg (delta_objective : ℚ) (u : ℝ)
    (hd : delta_objective < 0) : accepts delta_objective 0 u := by
  simp [accepts, ne_of_lt hd, hd]

/-- At temperature zero a strictly worse neighbor is never accepted:
`exp(-inf) = +0.0` does not exceed a non-negative draw. -/
theorem not_accepts_zero_of_pos (delta_objective : ℚ) (u : ℝ)
    (hu0 : 0 ≤ u) (hd : 0 < delta_objective) :
    ¬ accepts delta_objective 0 u := by
  simp [accepts, ne_of_gt hd, not_lt_of_gt hd]
  exact hu0

/-- C4 (amended): in one loop iteration, with `delta = objective(neighbor)
- objective(current)` and the uniform `[0,1)` draw `u`: while the
temperature is strictly positive, a neighbor with `delta ≤ 0` always
becomes `current` and one with `delta > 0` becomes `current` exactly when
`exp(-delta/temperature) > u` (the `accepts` test); at temperature zero
the IEEE evaluation of line 77 instead accepts exactly the strictly
improving neighbors — `delta = 0` gives a `NaN` comparison and `delta > 0`
gives `exp(-inf) = 0.0 > u`, both false, so `current` and `best` stay
unchanged; in every case a rejected neighbor leaves `current` and `best`
unchanged. -/
theorem saStep_acceptance (S : Type) (config : SimulatedAnnealingConfig)
    (obj : S → ℚ) (neighbor : S) (u : ℝ) (s s' : SAState S)
    (hu0 : 0 ≤ u) (hu1 : u < 1)
    (hstep : saStep config obj neighbor u s s') :
    (0 < s.temperature →
      (obj neighbor - obj s.current ≤ 0 → s'.current = neighbor) ∧
      (0 < obj neighbor - obj s.current →
        (s'.current = neighbor ↔
          accepts (obj neighbor - obj s.current) s.temperature u))) ∧
    (s.temperature = 0 →
      (obj neighbor - obj s.current < 0 → s'.current = neighbor) ∧
      (obj neighbor - obj s.current = 0 →
        s'.current = s.current ∧ s'.best = s.best) ∧
      (0 < obj neighbor - obj s.current →
        s'.current = s.current ∧ s'.best = s.best)) ∧
    (¬ accepts (obj neighbor - obj s.current) s.temperature u →
      s'.current = s.current ∧ s'.best = s.best) := by
  rcases hstep with ⟨hacc, ⟨himp, rfl⟩ | ⟨himp, rfl⟩⟩ | ⟨hnacc, rfl⟩
  · refine ⟨fun _ => ⟨fun _ => rfl, fun _ => ⟨fun _ => hacc, fun _ => rfl⟩⟩,
      fun hT0 => ⟨fun _ => rfl, fun hd0 => ?_, fun hdp => ?_⟩,
      fun hn => absurd hacc hn⟩
    · rw [hT0, hd0] at hacc
      exact absurd hacc (not_accepts_zero_zero u)
    · rw [hT0] at hacc
      exact absurd hacc (not_accepts_zero_of_pos _ u hu0 hdp)
  · refine ⟨fun _ => ⟨fun _ => rfl, fun _ => ⟨fun _ => hacc, fun _ => rfl⟩⟩,
      fun hT0 => ⟨fun _ => rfl, fun hd0 => ?_, fun hdp => ?_⟩,
      fun hn => absurd hacc hn⟩
    · rw [hT0, hd0] at hacc
      exact absurd hacc (not_accepts_zero_zero u)
    · rw [hT0] at hacc
      exact absurd hacc (not_accepts_zero_of_pos _ u hu0 hdp)
  · refine ⟨fun hT => ⟨fun hd => absurd (accepts_of_nonpos _ _ _ hT hu1 hd) hnacc,
      fun hpos => ⟨fun hcur => ?_, fun hacc => absurd hacc hnacc⟩⟩,
      fun hT0 => ⟨fun hdn => ?_, fun _ => ⟨rfl, rfl⟩, fun _ => ⟨rfl, rfl⟩⟩,
      fun _ => ⟨rfl, rfl⟩⟩
    · have hobj : obj s.current = obj neighbor := congrArg obj hcur
      simp only [hobj, sub_self, lt_self_iff_false] at hpos
    · rw [hT0] at hnacc
      exact absurd (accepts_zero_of_neg _ u hdn) hnacc

/-- C6: for a valid configuration (`cooling_rate ∈ [0,1]`,
`minimal_temperature ≥ 0`), each iteration updates the temperature to
`max(temperature * cooling_rate, minimal_temperature)`, which never falls
below `minimal_temperature` and never increases; along any run the
temperature is non-increasing and stays at or above the floor. -/
theorem saTemperature_invariant (S : Type) (config : SimulatedAnnealingConfig)
    (obj : S → ℚ)
    (hc0 : 0 ≤ config.cooling_rate) (hc1 : config.cooling_rate ≤ 1)
    (hm : 0 ≤ config.minimal_temperature) :
    (∀ (neighbor : S) (u : ℝ) (s s' : SAState S),
        saStep config obj neighbor u s s' →
        s'.temperature =
          max (cooldown config s.temperature) config.minimal_temperature ∧
        config.minimal_temperature ≤ s'.temperature ∧
        (config.minimal_temperature ≤ s.temperature →
          s'.temperature ≤ s.temperature)) ∧
    (∀ s s' : SAState S, saReach config obj s s' →
        config.minimal_temperature ≤ s.temperature →
        config.minimal_temperature ≤ s'.temperature ∧
        s'.temperature ≤ s.temperature) := by
  have hkey : ∀ (neighbor : S) (u : ℝ) (s s' : SAState S),
      saStep config obj neighbor u s s' →
      s'.temperature =
        max (cooldown config s.temperature) config.minimal_temperature ∧
      config.minimal_temperature ≤ s'.temperature ∧
      (config.minimal_temperature ≤ s.temperature →
        s'.temperature ≤ s.temperature) := by
    intro n u s s' hstep
    have ht : s'.temperature =
        max (cooldown config s.temperature) config.minimal_temperature := by
      rcases hstep with ⟨_, ⟨_, rfl⟩ | ⟨_, rfl⟩⟩ | ⟨_, rfl⟩ <;> rfl
    refine ⟨ht, ?_, ?_⟩
    · rw [ht]
      exact le_max_right _ _
    · intro hts
      rw [ht]
      apply max_le _ hts
      show s.temperature * config.cooling_rate ≤ s.temperature
      exact mul_le_of_le_one_right (le_trans hm hts) hc1
  refine ⟨hkey, ?_⟩
  intro s s' hreach
  have hreach' : Relation.ReflTransGen (saStepAny config obj) s s' := hreach
  clear hreach
  induction hreach' with
  | refl => exact fun h => ⟨h, le_rfl⟩
  | tail hab hbc ih =>
    intro hs
    obtain ⟨h1, h2⟩ := ih hs
    obtain ⟨n, u, _, _, hstep⟩ := hbc
    have h3 := hkey n u _ _ hstep
    exact ⟨h3.2.1, le_trans (h3.2.2 h1) h2⟩

/-- C7: in each iteration the tracked best's objective is non-increasing,
and it changes only to an accepted neighbor whose objective strictly
improves on it; along any run the best's objective is non-increasing and
stays at or below the current solution's objective (so the returned
`SimulationResult`, built from `best_solution`, carries the best-seen
solution, not the final current one). -/
theorem saBest_monotone_result (S : Type) (config : SimulatedAnnealingConfig)
    (obj : S → ℚ) :
    (∀ (neighbor : S) (u : ℝ) (s s' : SAState S),
        saStep config obj neighbor u s s' →
        obj s'.best ≤ obj s.best ∧
        (s'.best ≠ s.best → s'.best = neighbor ∧ obj neighbor < obj s.best ∧
          accepts (obj neighbor - obj s.current) s.temperature u)) ∧
    (∀ s s' : SAState S, saReach config obj s s' →
        obj s'.best ≤ obj s.best ∧
        (obj s.best ≤ obj s.current → obj s'.best ≤ obj s'.current)) ∧
    (∀ s : SAState S, (mkSimulationResult s).solution = s.best) := by
  have hstepb : ∀ (neighbor : S) (u : ℝ) (s s' : SAState S),
      saStep config obj neighbor u s s' →
      obj s'.best ≤ obj s.best ∧
      (obj s.best ≤ obj s.current → obj s'.best ≤ obj s'.current) ∧
      (s'.best ≠ s.best → s'.best = neighbor ∧ obj neighbor < obj s.best ∧
        accepts (obj neighbor - obj s.current) s.temperature u) := by
    intro n u s s' hstep
    rcases hstep with ⟨hacc, ⟨himp, rfl⟩ | ⟨himp, rfl⟩⟩ | ⟨hnacc, rfl⟩
    · exact ⟨le_of_lt himp, fun _ => le_rfl, fun _ => ⟨rfl, himp, hacc⟩⟩
    · exact ⟨le_rfl, fun _ => le_of_not_lt himp, fun hne => absurd rfl hne⟩
    · exact ⟨le_rfl, fun h => h, fun hne => absurd rfl hne⟩
  refine ⟨fun n u s s' hstep =>
    ⟨(hstepb n u s s' hstep).1, (hstepb n u s s' hstep).2.2⟩, ?_, fun s => rfl⟩
  intro s s' hreach
  have hreach' : Relation.ReflTransGen (saStepAny config obj) s s' := hreach
  clear hreach
  induction hreach' with
  | refl => exact ⟨le_rfl, fun h => h⟩
  | tail hab hbc ih =>
    obtain ⟨n, u, _, _, hstep⟩ := hbc
    have h3 := hstepb n u _ _ hstep
    exact ⟨le_trans h3.1 ih.1, fun h => h3.2.1 (ih.2 h)⟩

/-- A concrete configuration, pre-step state and post-step state used to
exercise one accepted annealing iteration. -/
def saConfigW : SimulatedAnnealingConfig := ⟨10, 1, 0, 1, none⟩

/-- Pre-step state: current and best at objective 1, temperature 1. -/
def saStateW : SAState ℚ := ⟨1, 1, 1, 0⟩

/-- Post-step state after accepting neighbor 0 (which improves the best). -/
def saStateW' : SAState ℚ := ⟨0, 0, max (cooldown saConfigW 1) 0, 0 + 1⟩

/-- The concrete accepted iteration at temperature 1: neighbor 0 improves
on current 1 and the acceptance test is `exp(1) > 0`. -/
theorem saStepW : saStep saConfigW id 0 0 saStateW saStateW' := by
  refine Or.inl ⟨?_, Or.inl ⟨zero_lt_one, rfl⟩⟩
  show accepts (id (0:ℚ) - id 1) 1 0
  unfold accepts
  rw [if_neg (one_ne_zero)]
  exact Real.exp_pos _

theorem saStep_acceptance_witness :
    saStep saConfigW id 0 0 saStateW saStateW' ∧ saStateW'.current = 0 :=
  ⟨saStepW,
    ((saStep_acceptance ℚ saConfigW id 0 0 saStateW saStateW'
          le_rfl zero_lt_one saStepW).1 zero_lt_one).1
      (sub_nonpos.mpr zero_le_one)⟩

theorem saTemperature_invariant_witness :
    saStateW'.temperature =
      max (cooldown saConfigW saStateW.temperature) saConfigW.minimal_temperature ∧
    saConfigW.minimal_temperature ≤ saStateW'.temperature ∧
    (saConfigW.minimal_temperature ≤ saStateW.temperature →
      saStateW'.temperature ≤ saStateW.temperature) :=
  (saTemperature_invariant ℚ saConfigW id zero_le_one le_rfl le_rfl).1 0 0
    saStateW saStateW' saStepW

/-- Zero-temperature configuration: `SimulatedAnnealingConfig::new` with
`initial_temperature = 0`, `minimal_temperature = 0`, `cooling_rate = 1`
validates, so the loop runs its acceptance test at temperature `0.0`. -/
def saConfigZ : SimulatedAnnealingConfig := ⟨10, 0, 0, 1, none⟩

/-- Zero-temperature state: current = best = 0, temperature 0. -/
def saStateZ : SAState ℚ := ⟨0, 0, 0, 0⟩

/-- The state after the zero-temperature iteration rejects the
equal-objective neighbor: current and best unchanged. -/
def saStateZ' : SAState ℚ := ⟨0, 0, max (cooldown saConfigZ 0) 0, 0 + 1⟩

/-- C4 counterexample: under the valid zero-temperature configuration, the
iteration on the constant-zero objective meets an equal-objective neighbor
(`delta = 0 ≤ 0`), yet the neighbor `1` does not become `current`: the
IEEE evaluation of `(-0.0/0.0).exp()` is `NaN` and the comparison with the
draw is false, so the claim's "if delta <= 0 the neighbor is always
accepted" fails. -/
theorem saStep_zero_temperature_rejects_equal :
    SimulatedAnnealingConfig.new 10 0 0 1 none = .ok saConfigZ ∧
    saStep saConfigZ (fun _ => 0) 1 0 saStateZ saStateZ' ∧
    (fun _ : ℚ => (0:ℚ)) 1 - (fun _ : ℚ => (0:ℚ)) saStateZ.current ≤ 0 ∧
    ¬ saStateZ'.current = 1 := by
  refine ⟨rfl, Or.inr ⟨?_, rfl⟩, ?_, ?_⟩
  · intro h
    simp [accepts, saStateZ] at h
  · norm_num
  · show ¬ (0:ℚ) = 1
    exact zero_ne_one
